import Mathlib

/-!
Shallow embedding of `src/Cpp/Savina/src/parallelism/GuidedSearch/GridNode.cc`.

A `GridNode` holds three integer lattice coordinates `i, j, k`, an atomic
pointer `parentInPath` to the claimed parent (initially `nullptr`), and an
adjacency list `neighbors` of node pointers.  Pointers are modelled by
natural-number identities (`Nat` for a node pointer, `Option Nat` for a
possibly-null pointer, `none` standing for `nullptr`).  The header file is
not in the sources; the field types follow the spec's description of the
data model ("three integer lattice coordinates", a nullable atomic parent
reference, an ordered adjacency list).

The C++ methods mutate the receiver; here each is a function from the old
node state (and the argument) to the result and the new node state.
-/

namespace GuidedSearch

/-- A grid node: `id` is the node's own pointer identity (the C++ `this`),
`i, j, k` its coordinates, `parentInPath` the atomic parent slot
(`none` = `nullptr`), `neighbors` the adjacency list of node pointers. -/
structure GridNode where
  id : Nat
  i : Int
  j : Int
  k : Int
  parentInPath : Option Nat
  neighbors : List Nat
  deriving DecidableEq, Repr

/-- `GridNode::setParent(GridNode* node)`:
`GridNode* tmp = nullptr; return parentInPath.compare_exchange_strong(tmp, node, relaxed);`
— if the slot currently equals `nullptr` it is overwritten with `node` (which
may itself be `nullptr`) and the call returns `true`; otherwise the slot is
left alone and the call returns `false`. -/
def setParent (g : GridNode) (node : Option Nat) : Bool × GridNode :=
  match g.parentInPath with
  | none => (true, { g with parentInPath := node })
  | some _ => (false, g)

/-- The radicand of `GridNode::distanceFrom(const GridNode* node)`:
`iDiff * iDiff + jDiff * jDiff + kDiff * kDiff` with
`iDiff = i - node->i`, etc.  The method returns `sqrt` of this value; the
square root is taken over `ℝ` in the theorems below. -/
def distSq (a b : GridNode) : Int :=
  let iDiff := a.i - b.i
  let jDiff := a.j - b.j
  let kDiff := a.k - b.k
  iDiff * iDiff + jDiff * jDiff + kDiff * kDiff

/-- `GridNode::addNeighbor(GridNode* node)`: returns `false` if
`node == this`; otherwise, if `node` is not yet in `neighbors`, appends it
(`push_back`) and returns `true`; if it is already present, returns
`false`. -/
def addNeighbor (g : GridNode) (node : Nat) : Bool × GridNode :=
  if node = g.id then
    (false, g)
  else if node ∈ g.neighbors then
    (false, g)
  else
    (true, { g with neighbors := g.neighbors ++ [node] })

/-- One call to any of the three `GridNode` methods, for reasoning about an
arbitrary sequence of operations on one node.  `distF` records a call to the
pure `distanceFrom`, which does not touch the state. -/
inductive Op where
  | setP : Option Nat → Op
  | addN : Nat → Op
  | distF : GridNode → Op
  deriving DecidableEq

/-- Apply one operation to a node's state. -/
def applyOp (g : GridNode) (op : Op) : GridNode :=
  match op with
  | Op.setP c => (setParent g c).2
  | Op.addN n => (addNeighbor g n).2
  | Op.distF _ => g

/-- Apply a sequence of operations to a node's state. -/
def runOps (g : GridNode) (ops : List Op) : GridNode :=
  ops.foldl applyOp g

/-- Run a sequence of `setParent` calls, one per candidate in `cs` (each a
non-null pointer), returning the list of results in call order together with
the final node state.  An arbitrary interleaving of concurrent callers is
one such sequence, since each CAS is a single linearization point. -/
def claimAll (g : GridNode) (cs : List Nat) : List Bool × GridNode :=
  match cs with
  | [] => ([], g)
  | c :: rest =>
    let r := setParent g (some c)
    let rs := claimAll r.2 rest
    (r.1 :: rs.1, rs.2)

/-- Run a sequence of `addNeighbor` calls, keeping only the final state. -/
def addAll (g : GridNode) (ns : List Nat) : GridNode :=
  ns.foldl (fun g n => (addNeighbor g n).2) g

/-- A node whose parent slot is set never gives the slot up, whatever the
candidate. -/
lemma setParent_of_some {g : GridNode} {p : Nat} (c : Option Nat)
    (h : g.parentInPath = some p) : setParent g c = (false, g) := by
  unfold setParent
  rw [h]

/-- On a node whose parent is already set, every `setParent` in a sequence
fails and the state never moves. -/
lemma claimAll_of_some {g : GridNode} {p : Nat} (cs : List Nat)
    (h : g.parentInPath = some p) :
    claimAll g cs = (List.replicate cs.length false, g) := by
  induction cs with
  | nil => rfl
  | cons c rest ih =>
    simp only [claimAll, setParent_of_some (some c) h, ih, List.length_cons,
      List.replicate_succ]

/-- `addNeighbor` never touches the parent slot or the identity or the
coordinates. -/
lemma addNeighbor_frame_fields (g : GridNode) (n : Nat) :
    (addNeighbor g n).2.parentInPath = g.parentInPath ∧
    (addNeighbor g n).2.id = g.id ∧
    (addNeighbor g n).2.i = g.i ∧
    (addNeighbor g n).2.j = g.j ∧
    (addNeighbor g n).2.k = g.k := by
  unfold addNeighbor
  split <;> [skip; split] <;> simp

/-- `setParent` never touches the neighbor list, the identity, or the
coordinates. -/
lemma setParent_frame_fields (g : GridNode) (c : Option Nat) :
    (setParent g c).2.neighbors = g.neighbors ∧
    (setParent g c).2.id = g.id := by
  unfold setParent
  split <;> simp

/-- A fresh, unclaimed node used as a concrete witness input. -/
def gU : GridNode := ⟨0, 0, 0, 0, none, []⟩

/-- A node whose parent slot is already set, used as a concrete witness
input. -/
def gS : GridNode := ⟨0, 0, 0, 0, some 9, []⟩

/-- A node with two neighbors already recorded, used as a concrete witness
input. -/
def gN : GridNode := ⟨0, 0, 0, 0, none, [1, 2]⟩

/-- C2: on an unset node, `setParent` with a non-null candidate stores that
candidate and returns true; on a set node it changes nothing and returns
false; and it returns true exactly when this call performed the
unset-to-set transition. -/
theorem setParent_contract (g : GridNode) (c : Nat) :
    (g.parentInPath = none →
      setParent g (some c) = (true, { g with parentInPath := some c }))
    ∧ (∀ p, g.parentInPath = some p → setParent g (some c) = (false, g))
    ∧ ((setParent g (some c)).1 = true ↔
        g.parentInPath = none ∧ (setParent g (some c)).2.parentInPath = some c) := by
  refine ⟨fun h => ?_, fun p h => setParent_of_some (some c) h, ?_⟩
  · unfold setParent
    rw [h]
  · unfold setParent
    cases h : g.parentInPath with
    | none => simp
    | some p => simp [h]

/-- Witness for C2: claiming the fresh node `gU` with candidate `5` succeeds
and stores `5`. -/
theorem setParent_contract_witness :
    setParent gU (some 5) = (true, { gU with parentInPath := some 5 }) :=
  (setParent_contract gU 5).1 rfl

/-- C3: on a node whose parent slot is already set, every further
`setParent` call — with any candidate, null or not, including the stored
winner itself — returns false and leaves the node unchanged. -/
theorem setParent_retry_rejected (g : GridNode) (p : Nat) (c : Option Nat)
    (h : g.parentInPath = some p) : setParent g c = (false, g) :=
  setParent_of_some c h

/-- Witness for C3: retrying the claimed node `gS` with its own stored
winner `9` fails and changes nothing. -/
theorem setParent_retry_rejected_witness :
    setParent gS (some 9) = (false, gS) :=
  setParent_retry_rejected gS 9 (some 9) rfl

/-- C9: `setParent` with a null candidate on an unset node returns true yet
leaves the slot equal to the null sentinel, so any subsequent `setParent`
on the node also returns true — a null candidate defeats the at-most-one-
winner guarantee. -/
theorem setParent_null_candidate (g : GridNode) (h : g.parentInPath = none) :
    (setParent g none).1 = true
    ∧ (setParent g none).2.parentInPath = none
    ∧ ∀ c : Option Nat, (setParent (setParent g none).2 c).1 = true := by
  unfold setParent
  rw [h]
  refine ⟨rfl, rfl, fun c => rfl⟩

/-- Witness for C9: claiming the fresh node `gU` with `nullptr` succeeds,
the slot stays null, and a second claim with candidate `4` also succeeds. -/
theorem setParent_null_candidate_witness :
    (setParent gU none).1 = true
    ∧ (setParent gU none).2.parentInPath = none
    ∧ (setParent (setParent gU none).2 (some 4)).1 = true :=
  ⟨(setParent_null_candidate gU rfl).1, (setParent_null_candidate gU rfl).2.1,
    (setParent_null_candidate gU rfl).2.2 (some 4)⟩

/-- C10: `addNeighbor` never removes, replaces, or reorders existing
entries: the old adjacency list is a prefix of the new one, a call that
returns true appends exactly its argument at the end, and a call that
returns false leaves the node identical. -/
theorem addNeighbor_frame (g : GridNode) (n : Nat) :
    (∃ t, (addNeighbor g n).2.neighbors = g.neighbors ++ t)
    ∧ ((addNeighbor g n).1 = true →
        (addNeighbor g n).2.neighbors = g.neighbors ++ [n])
    ∧ ((addNeighbor g n).1 = false → (addNeighbor g n).2 = g) := by
  unfold addNeighbor
  split
  · exact ⟨⟨[], by simp⟩, fun h => by simp at h, fun _ => rfl⟩
  · split
    · exact ⟨⟨[], by simp⟩, fun h => by simp at h, fun _ => rfl⟩
    · exact ⟨⟨[n], rfl⟩, fun _ => rfl, fun h => by simp at h⟩

/-- Witness for C10: adding `3` to `gN` (neighbors `[1, 2]`) returns true
and appends it at the end, and re-adding `1` returns false and leaves `gN`
identical. -/
theorem addNeighbor_frame_witness :
    (addNeighbor gN 3).2.neighbors = gN.neighbors ++ [3]
    ∧ (addNeighbor gN 1).2 = gN :=
  ⟨(addNeighbor_frame gN 3).2.1 rfl, (addNeighbor_frame gN 1).2.2 rfl⟩

/-- C1: modelling a concurrent burst of `attemptClaim` calls as an arbitrary
interleaving (each CAS is a single linearization point, so every concurrent
execution is equivalent to some sequential order of the calls): for any
node with an unset parent slot and any nonempty sequence of distinct
non-null candidates, exactly one call returns true — the results are one
`true` followed by only `false` — and the final parent is that winning
call's candidate. -/
theorem setParent_single_winner (g : GridNode) (c : Nat) (t : List Nat)
    (hunset : g.parentInPath = none) (_hdistinct : (c :: t).Nodup) :
    (claimAll g (c :: t)).1 = true :: List.replicate t.length false
    ∧ (claimAll g (c :: t)).1.count true = 1
    ∧ (claimAll g (c :: t)).2.parentInPath = some c := by
  have h1 : setParent g (some c) = (true, { g with parentInPath := some c }) := by
    unfold setParent
    rw [hunset]
  have h2 : claimAll { g with parentInPath := some c } t
      = (List.replicate t.length false, { g with parentInPath := some c }) :=
    claimAll_of_some t rfl
  refine ⟨?_, ?_, ?_⟩ <;>
    simp [claimAll, h1, h2, List.count_replicate]

/-- Witness for C1: three callers with candidates `1, 2, 3` race on the
fresh node `gU`; the results are `[true, false, false]` and the parent ends
up `1`. -/
theorem setParent_single_winner_witness :
    (claimAll gU [1, 2, 3]).1 = true :: List.replicate 2 false
    ∧ (claimAll gU [1, 2, 3]).1.count true = 1
    ∧ (claimAll gU [1, 2, 3]).2.parentInPath = some 1 :=
  setParent_single_winner gU 1 [2, 3] rfl (by decide)

/-- Every single operation preserves a set parent slot. -/
lemma applyOp_parent_some {g : GridNode} {w : Nat} (op : Op)
    (h : g.parentInPath = some w) : (applyOp g op).parentInPath = some w := by
  cases op with
  | setP c => simp [applyOp, setParent_of_some c h, h]
  | addN n => rw [applyOp, (addNeighbor_frame_fields g n).1, h]
  | distF _ => exact h

/-- A whole sequence of operations preserves a set parent slot. -/
lemma runOps_parent_some {w : Nat} (ops : List Op) :
    ∀ g : GridNode, g.parentInPath = some w →
      (runOps g ops).parentInPath = some w := by
  induction ops with
  | nil => exact fun _ h => h
  | cons op rest ih => exact fun g h => ih (applyOp g op) (applyOp_parent_some op h)

/-- C4: the parent slot is a write-once state machine.  Once it holds a
winner, no sequence of `setParent`, `addNeighbor` and `distanceFrom` calls
ever changes it or returns it to unset; and the only single step that
changes the slot at all is a `setParent` on an unset slot, which returns
true and installs its candidate. -/
theorem parent_write_once (g : GridNode) (w : Nat) (ops : List Op)
    (h : g.parentInPath = some w) :
    (runOps g ops).parentInPath = some w
    ∧ ∀ g2 : GridNode, ∀ op : Op,
        (applyOp g2 op).parentInPath ≠ g2.parentInPath →
        g2.parentInPath = none ∧ ∃ c, op = Op.setP c
          ∧ (setParent g2 c).1 = true ∧ (applyOp g2 op).parentInPath = c := by
  refine ⟨runOps_parent_some ops g h, ?_⟩
  intro g2 op hne
  cases op with
  | setP c =>
    cases hp : g2.parentInPath with
    | none =>
      have e : setParent g2 c = (true, { g2 with parentInPath := c }) := by
        unfold setParent
        rw [hp]
      exact ⟨rfl, c, rfl, by rw [e], by simp [applyOp, e]⟩
    | some p => exact absurd (applyOp_parent_some (Op.setP c) hp) (hp ▸ hne)
  | addN n => exact absurd ((addNeighbor_frame_fields g2 n).1) hne
  | distF _ => exact absurd rfl hne

/-- Witness for C4: the claimed node `gS` (parent `9`) keeps parent `9`
through a later claim attempt, a neighbor insertion and a distance query. -/
theorem parent_write_once_witness :
    (runOps gS [Op.setP (some 3), Op.addN 1, Op.distF gU]).parentInPath = some 9 :=
  (parent_write_once gS 9 [Op.setP (some 3), Op.addN 1, Op.distF gU] rfl).1

/-- C7: `addNeighbor` appends and returns true exactly when the argument is
neither the node itself nor already present; `addNeighbor(self)` always
returns false and changes nothing; a false call changes nothing; and two
successive calls with the same fresh argument return true then false,
leaving the argument in the list exactly once. -/
theorem addNeighbor_contract (g : GridNode) (n : Nat) :
    ((addNeighbor g n).1 = true ↔ (n ≠ g.id ∧ n ∉ g.neighbors))
    ∧ addNeighbor g g.id = (false, g)
    ∧ ((addNeighbor g n).1 = true →
        (addNeighbor g n).2.neighbors = g.neighbors ++ [n])
    ∧ ((addNeighbor g n).1 = false → (addNeighbor g n).2 = g)
    ∧ (n ≠ g.id → n ∉ g.neighbors →
        (addNeighbor g n).1 = true
        ∧ (addNeighbor (addNeighbor g n).2 n).1 = false
        ∧ (addNeighbor (addNeighbor g n).2 n).2.neighbors.count n = 1) := by
  have hid : addNeighbor g g.id = (false, g) := by
    unfold addNeighbor
    simp
  refine ⟨?_, hid, (addNeighbor_frame g n).2.1, (addNeighbor_frame g n).2.2, ?_⟩
  · unfold addNeighbor
    by_cases h1 : n = g.id
    · simp [h1]
    · by_cases h2 : n ∈ g.neighbors
      · simp [h1, h2]
      · simp [h1, h2]
  · intro hne hnotin
    have e1 : addNeighbor g n = (true, { g with neighbors := g.neighbors ++ [n] }) := by
      unfold addNeighbor
      simp [hne, hnotin]
    have e2 : addNeighbor { g with neighbors := g.neighbors ++ [n] } n
        = (false, { g with neighbors := g.neighbors ++ [n] }) := by
      unfold addNeighbor
      simp [hne]
    rw [e1, e2]
    refine ⟨rfl, rfl, ?_⟩
    simp [List.count_append, List.count_eq_zero_of_not_mem hnotin]

/-- Witness for C7: adding the fresh neighbor `3` to `gN` twice returns true
then false, and `3` ends up in the list exactly once. -/
theorem addNeighbor_contract_witness :
    (addNeighbor gN 3).1 = true
    ∧ (addNeighbor (addNeighbor gN 3).2 3).1 = false
    ∧ (addNeighbor (addNeighbor gN 3).2 3).2.neighbors.count 3 = 1 :=
  (addNeighbor_contract gN 3).2.2.2.2 (by decide) (by decide)

/-- Any sequence of `addNeighbor` calls preserves the combined invariant:
the node is not in its own adjacency list, the list has no duplicates, and
the node's identity is untouched. -/
lemma addAll_invariant (ns : List Nat) (g : GridNode)
    (hself : g.id ∉ g.neighbors) (hnodup : g.neighbors.Nodup) :
    g.id ∉ (addAll g ns).neighbors ∧ (addAll g ns).neighbors.Nodup
      ∧ (addAll g ns).id = g.id := by
  induction ns generalizing g with
  | nil => exact ⟨hself, hnodup, rfl⟩
  | cons n rest ih =>
    have hstep : addAll g (n :: rest) = addAll (addNeighbor g n).2 rest := rfl
    rw [hstep]
    by_cases h1 : n = g.id
    · have e : addNeighbor g n = (false, g) := by
        unfold addNeighbor
        simp [h1]
      rw [e]
      exact ih g hself hnodup
    · by_cases h2 : n ∈ g.neighbors
      · have e : addNeighbor g n = (false, g) := by
          unfold addNeighbor
          simp [h1, h2]
        rw [e]
        exact ih g hself hnodup
      · have e : addNeighbor g n = (true, { g with neighbors := g.neighbors ++ [n] }) := by
          unfold addNeighbor
          simp [h1, h2]
        rw [e]
        have hself2 : g.id ∉ g.neighbors ++ [n] := by
          intro hmem
          rcases List.mem_append.mp hmem with hmem | hmem
          · exact hself hmem
          · exact h1 ((List.mem_singleton.mp hmem).symm)
        have hnodup2 : (g.neighbors ++ [n]).Nodup := by
          rw [List.nodup_append]
          refine ⟨hnodup, List.nodup_singleton n, ?_⟩
          intro a ha hb
          rw [List.mem_singleton] at hb
          subst hb
          exact h2 ha
        exact ih { g with neighbors := g.neighbors ++ [n] } hself2 hnodup2

/-- C8: after any finite sequence of `addNeighbor` calls starting from an
empty adjacency list, the list never contains the node itself and has no
duplicate entries. -/
theorem neighbors_invariant (g : GridNode) (ns : List Nat)
    (hempty : g.neighbors = []) :
    g.id ∉ (addAll g ns).neighbors ∧ (addAll g ns).neighbors.Nodup := by
  have h := addAll_invariant ns g (by simp [hempty]) (by simp [hempty])
  exact ⟨h.1, h.2.1⟩

/-- Witness for C8: running `addNeighbor` with arguments `1, 2, 1, 0` on
the fresh node `gU` (whose id is `0`) leaves a list without `0` and without
duplicates. -/
theorem neighbors_invariant_witness :
    gU.id ∉ (addAll gU [1, 2, 1, 0]).neighbors
    ∧ (addAll gU [1, 2, 1, 0]).neighbors.Nodup :=
  neighbors_invariant gU [1, 2, 1, 0] rfl

/-- The node at the origin, used for the distance instances. -/
def nodeOrigin : GridNode := ⟨1, 0, 0, 0, none, []⟩

/-- The node at coordinates (3, 4, 0), used for the distance instances. -/
def node340 : GridNode := ⟨2, 3, 4, 0, none, []⟩

/-- The node at coordinates (1, 2, 3), used for the distance instances. -/
def node123 : GridNode := ⟨3, 1, 2, 3, none, []⟩

/-- C5: `distanceFrom` returns the square root of the sum of squared
per-axis coordinate differences; between (0,0,0) and (3,4,0) it returns 5,
and between (1,2,3) and itself it returns 0. -/
theorem distanceFrom_euclidean :
    (∀ a b : GridNode, ((distSq a b : Int) : ℝ)
        = ((a.i - b.i : Int) : ℝ) ^ 2 + ((a.j - b.j : Int) : ℝ) ^ 2
          + ((a.k - b.k : Int) : ℝ) ^ 2)
    ∧ Real.sqrt ((distSq nodeOrigin node340 : Int) : ℝ) = 5
    ∧ Real.sqrt ((distSq node123 node123 : Int) : ℝ) = 0 := by
  refine ⟨fun a b => ?_, ?_, ?_⟩
  · unfold distSq
    push_cast
    ring
  · have h : distSq nodeOrigin node340 = 25 := by decide
    rw [h]
    have h2 : ((25 : Int) : ℝ) = 5 ^ 2 := by norm_num
    rw [h2, Real.sqrt_sq (by norm_num : (0:ℝ) ≤ 5)]
  · have h : distSq node123 node123 = 0 := by decide
    rw [h]
    simp

/-- C6: `distanceFrom` is symmetric — the distance from `a` to `b` equals
the distance from `b` to `a` for every pair of nodes. -/
theorem distanceFrom_symm (a b : GridNode) :
    Real.sqrt ((distSq a b : Int) : ℝ) = Real.sqrt ((distSq b a : Int) : ℝ) := by
  have h : distSq a b = distSq b a := by
    unfold distSq
    ring
  rw [h]

end GuidedSearch
